import Mathlib

/-!
Shallow embedding of the address-resolution pipeline of `src/app.py`
(a Streamlit merchant-location mapper).

Strings are modelled as `List Char`.  The Python regex character class
`\w` is modelled as ASCII alphanumeric-or-underscore, `\s` as
`Char.isWhitespace`; this covers the ASCII fragment the pipeline handles.

The external geocoding backend (`geolocator.geocode`) is modelled as an
oracle: a function from the call index and the query string to a response.
A response is either a location (latitude/longitude), `None` (zero
matches), a transient exception (`GeocoderTimedOut` / `GeocoderServiceError`),
or any other exception.  Runs are instrumented with an event trace
recording each backend call (with its query and response) and each
`time.sleep` the code performs, so that call counts, retry counts and
inter-request delays can be stated.
-/

/-- Model of Python `\w` (ASCII fragment): alphanumeric or underscore. -/
def isWordChar (c : Char) : Bool := c.isAlphanum || c = '_'

/-- The character class kept by `re.sub(r'[^\w\s,]', '', address)` in
`clean_address` (src/app.py line 20): word characters, whitespace, comma. -/
def pyKeep (c : Char) : Bool := isWordChar c || c.isWhitespace || c = ','

/-- Model of Python `str.split()` with no separator (src/app.py line 21):
split on runs of whitespace, discarding empty pieces. -/
def pySplit : List Char → List (List Char)
  | [] => []
  | c :: cs =>
    if c.isWhitespace then pySplit cs
    else
      match cs with
      | [] => [[c]]
      | d :: _ =>
        if d.isWhitespace then [c] :: pySplit cs
        else
          match pySplit cs with
          | [] => [[c]]
          | w :: ws => (c :: w) :: ws

/-- Model of Python joining pieces with a single space (src/app.py line 21). -/
def pyJoin : List (List Char) → List Char
  | [] => []
  | [w] => w
  | w :: ws => w ++ ' ' :: pyJoin ws

/-- `clean_address` (src/app.py lines 18-22): strip characters outside
`[\w\s,]`, then collapse whitespace runs to single spaces and trim, as
Python does by splitting on whitespace and joining with single spaces. -/
def clean_address (address : List Char) : List Char :=
  pyJoin (pySplit (address.filter pyKeep))

/-- A response of the external geocoder for one call. -/
inductive Resp where
  | found (lat lng : Int)
  | notFound
  | transientErr
  | otherErr
deriving DecidableEq, Repr

/-- Trace events of a resolution run: a backend call (query and response)
or a `time.sleep` of the given number of seconds. -/
inductive Ev where
  | call (q : List Char) (r : Resp)
  | sleep (secs : Nat)
deriving DecidableEq, Repr

/-- The external geocoding backend: response as a function of the global
call index and the query string. -/
def Oracle : Type := Nat → List Char → Resp

/-- The full-address query string built at src/app.py lines 29-33:
`f"{address}, {city}"`, then `, state` if `state` is truthy, then
`, postal_code` if `postal_code` is truthy.  Python truthiness of an
optional string: `None` and the empty string are falsy. -/
def buildFullAddress (address city : List Char) (state postal_code : Option (List Char)) :
    List Char :=
  let fa := address ++ [',', ' '] ++ city
  let fa := match state with
    | some s => if s.isEmpty then fa else fa ++ [',', ' '] ++ s
    | none => fa
  match postal_code with
  | some p => if p.isEmpty then fa else fa ++ [',', ' '] ++ p
  | none => fa

/-- The city-only fallback query string built at src/app.py lines 41-45:
`f"{city}"`, then `, state` and `, postal_code` when truthy. -/
def buildCityQuery (city : List Char) (state postal_code : Option (List Char)) :
    List Char :=
  let fa := city
  let fa := match state with
    | some s => if s.isEmpty then fa else fa ++ [',', ' '] ++ s
    | none => fa
  match postal_code with
  | some p => if p.isEmpty then fa else fa ++ [',', ' '] ++ p
  | none => fa

/-- Result of one `geocode_address` run: the returned latitude/longitude
(both `none` on failure, matching `return None, None`), the event trace,
and the next global call index. -/
structure RunResult where
  lat : Option Int
  lng : Option Int
  events : List Ev
  next : Nat
deriving DecidableEq, Repr

/-- The retry loop of `geocode_address` (src/app.py lines 27-60), with the
two query strings already built and cleaned (they do not change across
iterations).  `fuel` is the number of remaining iterations of
`for retry in range(max_retries)`; `k` is the global call index.
Each iteration: query the full address; on a location return it; on `None`
query the city fallback in the same iteration; a transient exception from
either call is caught, `time.sleep(5)` runs and the loop continues; any
other exception breaks out of the loop; falling off the loop returns
`None, None`. -/
def geocodeLoop (o : Oracle) (fullQ cityQ : List Char) : Nat → Nat → RunResult
  | 0, k => ⟨none, none, [], k⟩
  | fuel + 1, k =>
    match o k fullQ with
    | .found la ln => ⟨some la, some ln, [.call fullQ (.found la ln)], k + 1⟩
    | .transientErr =>
      let rest := geocodeLoop o fullQ cityQ fuel (k + 1)
      ⟨rest.lat, rest.lng, .call fullQ .transientErr :: .sleep 5 :: rest.events, rest.next⟩
    | .otherErr => ⟨none, none, [.call fullQ .otherErr], k + 1⟩
    | .notFound =>
      match o (k + 1) cityQ with
      | .found la ln =>
        ⟨some la, some ln, [.call fullQ .notFound, .call cityQ (.found la ln)], k + 2⟩
      | .transientErr =>
        let rest := geocodeLoop o fullQ cityQ fuel (k + 2)
        ⟨rest.lat, rest.lng,
          .call fullQ .notFound :: .call cityQ .transientErr :: .sleep 5 :: rest.events,
          rest.next⟩
      | .otherErr => ⟨none, none, [.call fullQ .notFound, .call cityQ .otherErr], k + 2⟩
      | .notFound =>
        let rest := geocodeLoop o fullQ cityQ fuel (k + 2)
        ⟨rest.lat, rest.lng,
          .call fullQ .notFound :: .call cityQ .notFound :: rest.events,
          rest.next⟩

/-- `geocode_address` (src/app.py lines 24-60): build and clean both query
strings, then run the retry loop. -/
def geocode_address (o : Oracle) (address city : List Char)
    (state postal_code : Option (List Char)) (max_retries : Nat) (k : Nat) : RunResult :=
  geocodeLoop o (clean_address (buildFullAddress address city state postal_code))
    (clean_address (buildCityQuery city state postal_code)) max_retries k

/-- Number of backend calls recorded in a trace. -/
def numCalls (evs : List Ev) : Nat :=
  evs.countP fun e => match e with | .call _ _ => true | .sleep _ => false

/-- Number of sleeps recorded in a trace. -/
def numSleeps (evs : List Ev) : Nat :=
  evs.countP fun e => match e with | .call _ _ => false | .sleep _ => true

/-- Number of backend calls in a trace that were answered with a
transient error. -/
def numTransientCalls (evs : List Ev) : Nat :=
  evs.countP fun e => match e with | .call _ .transientErr => true | _ => false

/-- One input row of the batch, after column selection (src/app.py
lines 166-168): address and city strings, optional state and postal code. -/
structure MRecord where
  address : List Char
  city : List Char
  state : Option (List Char)
  postal_code : Option (List Char)
deriving DecidableEq, Repr

/-- Result of the batch loop: the per-record `(lat, lng)` outcomes, the
combined event trace, and the final call index. -/
structure BatchResult where
  outcomes : List (Option Int × Option Int)
  events : List Ev
  next : Nat
deriving DecidableEq, Repr

/-- The geocoding loop of `main` (src/app.py lines 163-171): for each row,
call `geocode_address` (with the default `max_retries = 3`) and append the
`(lat, lng)` pair to the results. -/
def resolveBatch (o : Oracle) : List MRecord → Nat → BatchResult
  | [], k => ⟨[], [], k⟩
  | r :: rs, k =>
    let res := geocode_address o r.address r.city r.state r.postal_code 3 k
    let rest := resolveBatch o rs res.next
    ⟨(res.lat, res.lng) :: rest.outcomes, res.events ++ rest.events, rest.next⟩

/-- A backend that always reports zero matches. -/
def oracleNF : Oracle := fun _ _ => .notFound

/-- A backend that always raises a transient error. -/
def oracleT : Oracle := fun _ _ => .transientErr

/-- A backend that always finds coordinates (1, 2). -/
def oracleFound : Oracle := fun _ _ => .found 1 2

/-- A backend whose first call reports zero matches and whose later calls
raise transient errors. -/
def oracleC9 : Oracle := fun i _ => if i = 0 then .notFound else .transientErr

/-- Every word produced by `pySplit` is nonempty and whitespace-free. -/
def GoodWords (ws : List (List Char)) : Prop :=
  ∀ w ∈ ws, w ≠ [] ∧ ∀ c ∈ w, c.isWhitespace = false

theorem pyJoin_single (w : List Char) : pyJoin [w] = w := rfl

theorem pyJoin_cons (w w' : List Char) (ws : List (List Char)) :
    pyJoin (w :: w' :: ws) = w ++ ' ' :: pyJoin (w' :: ws) := rfl

/-- A leading whitespace character is skipped by `pySplit`. -/
theorem pySplit_ws_cons (c : Char) (cs : List Char) (hc : c.isWhitespace = true) :
    pySplit (c :: cs) = pySplit cs := by
  cases cs with
  | nil => rw [pySplit.eq_2, if_pos hc]
  | cons d cs' => rw [pySplit.eq_3, if_pos hc]

/-- `pySplit` of a list starting with a non-whitespace character is nonempty. -/
theorem pySplit_cons_ne_nil (d : Char) (cs : List Char) (hd : ¬(d.isWhitespace = true)) :
    pySplit (d :: cs) ≠ [] := by
  cases cs with
  | nil => rw [pySplit.eq_2, if_neg hd]; simp
  | cons e cs' =>
    rw [pySplit.eq_3, if_neg hd]
    by_cases he : e.isWhitespace = true
    · rw [if_pos he]; simp
    · rw [if_neg he]
      obtain ⟨w0, ws0, hps⟩ := List.exists_cons_of_ne_nil (pySplit_cons_ne_nil e cs' he)
      rw [hps]
      simp

theorem pySplit_good (l : List Char) : GoodWords (pySplit l) := by
  induction l with
  | nil => intro w hw; rw [pySplit.eq_1] at hw; simp at hw
  | cons c cs ih =>
    intro w hw
    by_cases hc : c.isWhitespace = true
    · rw [pySplit_ws_cons c cs hc] at hw
      exact ih w hw
    · have hc' : c.isWhitespace = false := by rwa [Bool.not_eq_true] at hc
      match cs with
      | [] =>
        rw [pySplit.eq_2, if_neg hc] at hw
        simp only [List.mem_singleton] at hw
        subst hw
        refine ⟨by simp, ?_⟩
        intro x hx
        simp only [List.mem_singleton] at hx
        subst hx; exact hc'
      | d :: cs' =>
        rw [pySplit.eq_3, if_neg hc] at hw
        by_cases hd : d.isWhitespace = true
        · rw [if_pos hd] at hw
          rcases List.mem_cons.mp hw with h | h
          · subst h
            refine ⟨by simp, ?_⟩
            intro x hx
            simp only [List.mem_singleton] at hx
            subst hx; exact hc'
          · exact ih w h
        · rw [if_neg hd] at hw
          obtain ⟨w0, ws0, hps⟩ := List.exists_cons_of_ne_nil (pySplit_cons_ne_nil d cs' hd)
          rw [hps] at hw
          have hw2 : w ∈ (c :: w0) :: ws0 := hw
          rcases List.mem_cons.mp hw2 with h | h
          · subst h
            have hw0 := ih w0 (by rw [hps]; exact List.mem_cons_self _ _)
            refine ⟨by simp, ?_⟩
            intro x hx
            rcases List.mem_cons.mp hx with hx | hx
            · subst hx; exact hc'
            · exact hw0.2 x hx
          · exact ih w (by rw [hps]; exact List.mem_cons_of_mem _ h)

/-- Every character of a `pySplit` word comes from the input list. -/
theorem pySplit_mem (l : List Char) : ∀ w ∈ pySplit l, ∀ c ∈ w, c ∈ l := by
  induction l with
  | nil => intro w hw; rw [pySplit.eq_1] at hw; simp at hw
  | cons c cs ih =>
    intro w hw x hx
    by_cases hc : c.isWhitespace = true
    · rw [pySplit_ws_cons c cs hc] at hw
      exact List.mem_cons_of_mem _ (ih w hw x hx)
    · match cs with
      | [] =>
        rw [pySplit.eq_2, if_neg hc] at hw
        simp only [List.mem_singleton] at hw
        subst hw
        simp only [List.mem_singleton] at hx
        subst hx; exact List.mem_cons_self _ _
      | d :: cs' =>
        rw [pySplit.eq_3, if_neg hc] at hw
        by_cases hd : d.isWhitespace = true
        · rw [if_pos hd] at hw
          rcases List.mem_cons.mp hw with h | h
          · subst h
            simp only [List.mem_singleton] at hx
            subst hx; exact List.mem_cons_self _ _
          · exact List.mem_cons_of_mem _ (ih w h x hx)
        · rw [if_neg hd] at hw
          obtain ⟨w0, ws0, hps⟩ := List.exists_cons_of_ne_nil (pySplit_cons_ne_nil d cs' hd)
          rw [hps] at hw
          have hw2 : w ∈ (c :: w0) :: ws0 := hw
          rcases List.mem_cons.mp hw2 with h | h
          · subst h
            rcases List.mem_cons.mp hx with hx | hx
            · subst hx; exact List.mem_cons_self _ _
            · exact List.mem_cons_of_mem _
                (ih w0 (by rw [hps]; exact List.mem_cons_self _ _) x hx)
          · exact List.mem_cons_of_mem _
              (ih w (by rw [hps]; exact List.mem_cons_of_mem _ h) x hx)

/-- Splitting a whitespace-free nonempty word returns just that word. -/
theorem pySplit_word (w : List Char) (hne : w ≠ [])
    (hnw : ∀ c ∈ w, c.isWhitespace = false) : pySplit w = [w] := by
  induction w with
  | nil => exact absurd rfl hne
  | cons c w' ih =>
    have hc : ¬(c.isWhitespace = true) := by
      rw [hnw c (List.mem_cons_self _ _)]; simp
    match w' with
    | [] => rw [pySplit.eq_2, if_neg hc]
    | d :: w'' =>
      have hd : ¬(d.isWhitespace = true) := by
        rw [hnw d (List.mem_cons_of_mem _ (List.mem_cons_self _ _))]; simp
      rw [pySplit.eq_3, if_neg hc, if_neg hd,
        ih (by simp) (fun x hx => hnw x (List.mem_cons_of_mem _ hx))]

/-- Splitting a whitespace-free nonempty word followed by a space and a
remainder peels off exactly that word. -/
theorem pySplit_word_append (w l : List Char) (hne : w ≠ [])
    (hnw : ∀ c ∈ w, c.isWhitespace = false) :
    pySplit (w ++ ' ' :: l) = w :: pySplit l := by
  induction w with
  | nil => exact absurd rfl hne
  | cons c w' ih =>
    have hc : ¬(c.isWhitespace = true) := by
      rw [hnw c (List.mem_cons_self _ _)]; simp
    match w' with
    | [] =>
      rw [List.cons_append, List.nil_append, pySplit.eq_3, if_neg hc, if_pos (by decide),
        pySplit_ws_cons ' ' l (by decide)]
    | d :: w'' =>
      have hd : ¬(d.isWhitespace = true) := by
        rw [hnw d (List.mem_cons_of_mem _ (List.mem_cons_self _ _))]; simp
      have ih2 := ih (by simp) (fun x hx => hnw x (List.mem_cons_of_mem _ hx))
      rw [List.cons_append] at ih2 ⊢
      rw [List.cons_append, pySplit.eq_3, if_neg hc, if_neg hd, ih2]

/-- `pySplit` is a left inverse of `pyJoin` on good word lists. -/
theorem pySplit_pyJoin (ws : List (List Char)) (h : GoodWords ws) :
    pySplit (pyJoin ws) = ws := by
  induction ws with
  | nil => rfl
  | cons w ws' ih =>
    match ws' with
    | [] =>
      have hw := h w (List.mem_cons_self _ _)
      rw [pyJoin_single, pySplit_word w hw.1 hw.2]
    | w' :: rest =>
      have hw := h w (List.mem_cons_self _ _)
      rw [pyJoin_cons, pySplit_word_append w _ hw.1 hw.2,
        ih (fun x hx => h x (List.mem_cons_of_mem _ hx))]

/-- Every character of `pyJoin ws` is a space or belongs to some word. -/
theorem pyJoin_mem (ws : List (List Char)) :
    ∀ c ∈ pyJoin ws, c = ' ' ∨ ∃ w ∈ ws, c ∈ w := by
  induction ws with
  | nil => intro c hc; simp [pyJoin] at hc
  | cons w ws' ih =>
    intro c hc
    match ws' with
    | [] => exact Or.inr ⟨w, List.mem_cons_self _ _, hc⟩
    | w' :: rest =>
      rw [pyJoin_cons] at hc
      rcases List.mem_append.mp hc with h | h
      · exact Or.inr ⟨w, List.mem_cons_self _ _, h⟩
      · rcases List.mem_cons.mp h with h | h
        · exact Or.inl h
        · rcases ih c h with h | ⟨w0, hw0, hc0⟩
          · exact Or.inl h
          · exact Or.inr ⟨w0, List.mem_cons_of_mem _ hw0, hc0⟩

/-- Every character of `clean_address l` passes the kept-character class
and is either a character of `l` or a separator space. -/
theorem clean_address_mem (l : List Char) :
    ∀ c ∈ clean_address l, pyKeep c = true ∧ (c ∈ l ∨ c = ' ') := by
  intro c hc
  rcases pyJoin_mem _ c hc with h | ⟨w, hw, hcw⟩
  · subst h; exact ⟨by decide, Or.inr rfl⟩
  · have hmem := pySplit_mem _ w hw c hcw
    exact ⟨(List.mem_filter.mp hmem).2, Or.inl (List.mem_filter.mp hmem).1⟩

/-- `clean_address` output is a fixed point of the punctuation filter. -/
theorem clean_address_filter (l : List Char) :
    (clean_address l).filter pyKeep = clean_address l :=
  List.filter_eq_self.mpr fun c hc => (clean_address_mem l c hc).1

theorem pyJoin_ne_nil (w : List Char) (ws : List (List Char)) (hw : w ≠ []) :
    pyJoin (w :: ws) ≠ [] := by
  cases ws with
  | nil => rw [pyJoin_single]; exact hw
  | cons w' rest =>
    rw [pyJoin_cons]
    cases w with
    | nil => exact absurd rfl hw
    | cons a w0 => simp

theorem pyJoin_head? (w : List Char) (ws : List (List Char)) (hw : w ≠ []) :
    (pyJoin (w :: ws)).head? = w.head? := by
  cases ws with
  | nil => rw [pyJoin_single]
  | cons w' rest =>
    rw [pyJoin_cons]
    cases w with
    | nil => exact absurd rfl hw
    | cons a w0 => rfl

theorem pyJoin_head_good (ws : List (List Char)) (h : GoodWords ws) :
    ∀ c ∈ (pyJoin ws).head?, c.isWhitespace = false := by
  cases ws with
  | nil => intro c hc; simp [pyJoin] at hc
  | cons w ws' =>
    intro c hc
    have hw := h w (List.mem_cons_self _ _)
    rw [pyJoin_head? w ws' hw.1] at hc
    exact hw.2 c (List.mem_of_mem_head? hc)

theorem pyJoin_getLast_good (ws : List (List Char)) (h : GoodWords ws) :
    ∀ c ∈ (pyJoin ws).getLast?, c.isWhitespace = false := by
  induction ws with
  | nil => intro c hc; simp [pyJoin] at hc
  | cons w ws' ih =>
    match ws' with
    | [] =>
      intro c hc
      rw [pyJoin_single] at hc
      exact (h w (List.mem_cons_self _ _)).2 c (List.mem_of_mem_getLast? hc)
    | w' :: rest =>
      intro c hc
      have hJ : pyJoin (w' :: rest) ≠ [] :=
        pyJoin_ne_nil w' rest (h w' (List.mem_cons_of_mem _ (List.mem_cons_self _ _))).1
      obtain ⟨x, hx⟩ : ∃ x, (pyJoin (w' :: rest)).getLast? = some x := by
        cases hgl : (pyJoin (w' :: rest)).getLast? with
        | none => exact absurd (List.getLast?_eq_none_iff.mp hgl) hJ
        | some x => exact ⟨x, rfl⟩
      rw [pyJoin_cons, List.getLast?_append] at hc
      have h3 : (' ' :: pyJoin (w' :: rest)).getLast? = some x := by
        rw [show ' ' :: pyJoin (w' :: rest) = [' '] ++ pyJoin (w' :: rest) from rfl,
          List.getLast?_append, hx]
        rfl
      rw [h3] at hc
      have hcx : c = x := by
        have := hc
        simp at this
        exact this.symm
      subst hcx
      exact ih (fun y hy => h y (List.mem_cons_of_mem _ hy)) c (by rw [hx]; rfl)

theorem chain_of_all_nonws (w : List Char) (h : ∀ c ∈ w, c.isWhitespace = false) :
    w.Chain' (fun a b => ¬(a.isWhitespace = true ∧ b.isWhitespace = true)) := by
  induction w with
  | nil => exact List.chain'_nil
  | cons c w' ih =>
    rw [List.chain'_cons']
    refine ⟨?_, ih (fun x hx => h x (List.mem_cons_of_mem _ hx))⟩
    intro y hy hcon
    rw [h c (List.mem_cons_self _ _)] at hcon
    exact absurd hcon.1 (by simp)

theorem pyJoin_chain (ws : List (List Char)) (h : GoodWords ws) :
    (pyJoin ws).Chain' (fun a b => ¬(a.isWhitespace = true ∧ b.isWhitespace = true)) := by
  induction ws with
  | nil => exact List.chain'_nil
  | cons w ws' ih =>
    match ws' with
    | [] =>
      rw [pyJoin_single]
      exact chain_of_all_nonws w (h w (List.mem_cons_self _ _)).2
    | w' :: rest =>
      rw [pyJoin_cons, List.chain'_append]
      refine ⟨chain_of_all_nonws w (h w (List.mem_cons_self _ _)).2, ?_, ?_⟩
      · rw [List.chain'_cons']
        refine ⟨?_, ih (fun x hx => h x (List.mem_cons_of_mem _ hx))⟩
        intro y hy hcon
        have hw' := h w' (List.mem_cons_of_mem _ (List.mem_cons_self _ _))
        rw [pyJoin_head? w' rest hw'.1] at hy
        rw [hw'.2 y (List.mem_of_mem_head? hy)] at hcon
        exact absurd hcon.2 (by simp)
      · intro x hx y hy hcon
        rw [(h w (List.mem_cons_self _ _)).2 x (List.mem_of_mem_getLast? hx)] at hcon
        exact absurd hcon.1 (by simp)

/-- Whitespace surviving in `clean_address` output is exactly the space
separator. -/
theorem clean_address_ws_space (l : List Char) :
    ∀ c ∈ clean_address l, c.isWhitespace = true → c = ' ' := by
  intro c hc hws
  rcases pyJoin_mem _ c hc with h | ⟨w, hw, hcw⟩
  · exact h
  · rw [(pySplit_good _ w hw).2 c hcw] at hws
    exact absurd hws (by simp)

/-- C7: the address normalizer is idempotent: cleaning an already cleaned
string returns it unchanged. -/
theorem C7_clean_address_idempotent (x : List Char) :
    clean_address (clean_address x) = clean_address x := by
  calc clean_address (clean_address x)
      = pyJoin (pySplit ((clean_address x).filter pyKeep)) := rfl
    _ = pyJoin (pySplit (clean_address x)) := by rw [clean_address_filter x]
    _ = pyJoin (pySplit (pyJoin (pySplit (x.filter pyKeep)))) := rfl
    _ = pyJoin (pySplit (x.filter pyKeep)) := by
        rw [pySplit_pyJoin _ (pySplit_good _)]
    _ = clean_address x := rfl

/-- C6 counterexample: `clean_address` does not lower-case and removes
periods and hyphens (the claimed whitelist would keep them): on input
"A.b-c" the claimed normalizer yields "a.b-c" but the code yields "Abc". -/
theorem C6_counterexample :
    clean_address ("A.b-c".toList) = "Abc".toList ∧
    clean_address ("A.b-c".toList) ≠ "a.b-c".toList ∧
    ('.' ∈ "A.b-c".toList ∧ '.' ∉ clean_address ("A.b-c".toList)) ∧
    ('-' ∈ "A.b-c".toList ∧ '-' ∉ clean_address ("A.b-c".toList)) ∧
    clean_address ("A".toList) = "A".toList := by decide

/-- C6 (amended): the normalizer preserves case; it removes exactly the
characters outside the whitelist of word characters, whitespace and comma
(periods and hyphens are removed); it collapses whitespace so that every
surviving whitespace character is a single separator space, never two
adjacent; and it trims whitespace from both ends. -/
theorem C6_clean_address_characterization (l : List Char) :
    (∀ c ∈ clean_address l, pyKeep c = true ∧ (c ∈ l ∨ c = ' ')) ∧
    (∀ c ∈ clean_address l, c.isWhitespace = true → c = ' ') ∧
    '.' ∉ clean_address l ∧
    '-' ∉ clean_address l ∧
    (clean_address l).Chain' (fun a b => ¬(a.isWhitespace = true ∧ b.isWhitespace = true)) ∧
    (∀ c ∈ (clean_address l).head?, c.isWhitespace = false) ∧
    (∀ c ∈ (clean_address l).getLast?, c.isWhitespace = false) := by
  refine ⟨clean_address_mem l, clean_address_ws_space l, ?_, ?_,
    pyJoin_chain _ (pySplit_good _), pyJoin_head_good _ (pySplit_good _),
    pyJoin_getLast_good _ (pySplit_good _)⟩
  · intro hmem
    exact absurd (clean_address_mem l '.' hmem).1 (by decide)
  · intro hmem
    exact absurd (clean_address_mem l '-' hmem).1 (by decide)

/-- Witness for the amended C6 at a concrete input. -/
theorem C6_witness : '.' ∉ clean_address ("A.b".toList) :=
  (C6_clean_address_characterization ("A.b".toList)).2.2.1

theorem numCalls_nil : numCalls [] = 0 := rfl

theorem numCalls_cons_call (q : List Char) (r : Resp) (evs : List Ev) :
    numCalls (.call q r :: evs) = numCalls evs + 1 := by
  simp [numCalls, List.countP_cons]

theorem numCalls_cons_sleep (s : Nat) (evs : List Ev) :
    numCalls (.sleep s :: evs) = numCalls evs := by
  simp [numCalls, List.countP_cons]

theorem numCalls_append (l1 l2 : List Ev) :
    numCalls (l1 ++ l2) = numCalls l1 + numCalls l2 := by
  simp [numCalls, List.countP_append]

theorem numSleeps_cons_call (q : List Char) (r : Resp) (evs : List Ev) :
    numSleeps (.call q r :: evs) = numSleeps evs := by
  simp [numSleeps, List.countP_cons]

theorem numSleeps_cons_sleep (s : Nat) (evs : List Ev) :
    numSleeps (.sleep s :: evs) = numSleeps evs + 1 := by
  simp [numSleeps, List.countP_cons]

theorem countP_join_replicate (p : Ev → Bool) (n : Nat) (l : List Ev) :
    ((List.replicate n l).flatten).countP p = n * l.countP p := by
  induction n with
  | zero => simp
  | succ n ih =>
    rw [List.replicate_succ, List.flatten_cons, List.countP_append, ih, Nat.succ_mul]
    omega

theorem numCalls_flatten_replicate (n : Nat) (l : List Ev) :
    numCalls ((List.replicate n l).flatten) = n * numCalls l :=
  countP_join_replicate _ n l

theorem numSleeps_flatten_replicate (n : Nat) (l : List Ev) :
    numSleeps ((List.replicate n l).flatten) = n * numSleeps l :=
  countP_join_replicate _ n l

theorem geocodeLoop_found (o : Oracle) (fq cq : List Char) (n k : Nat) (la ln : Int)
    (h1 : o k fq = .found la ln) :
    geocodeLoop o fq cq (n + 1) k = ⟨some la, some ln, [.call fq (.found la ln)], k + 1⟩ := by
  rw [geocodeLoop.eq_2, h1]

theorem geocodeLoop_transient1 (o : Oracle) (fq cq : List Char) (n k : Nat)
    (h1 : o k fq = .transientErr) :
    geocodeLoop o fq cq (n + 1) k =
      ⟨(geocodeLoop o fq cq n (k + 1)).lat, (geocodeLoop o fq cq n (k + 1)).lng,
        .call fq .transientErr :: .sleep 5 :: (geocodeLoop o fq cq n (k + 1)).events,
        (geocodeLoop o fq cq n (k + 1)).next⟩ := by
  rw [geocodeLoop.eq_2, h1]

theorem geocodeLoop_other1 (o : Oracle) (fq cq : List Char) (n k : Nat)
    (h1 : o k fq = .otherErr) :
    geocodeLoop o fq cq (n + 1) k = ⟨none, none, [.call fq .otherErr], k + 1⟩ := by
  rw [geocodeLoop.eq_2, h1]

theorem geocodeLoop_nf_found (o : Oracle) (fq cq : List Char) (n k : Nat) (la ln : Int)
    (h1 : o k fq = .notFound) (h2 : o (k + 1) cq = .found la ln) :
    geocodeLoop o fq cq (n + 1) k =
      ⟨some la, some ln, [.call fq .notFound, .call cq (.found la ln)], k + 2⟩ := by
  rw [geocodeLoop.eq_2, h1, h2]

theorem geocodeLoop_nf_transient (o : Oracle) (fq cq : List Char) (n k : Nat)
    (h1 : o k fq = .notFound) (h2 : o (k + 1) cq = .transientErr) :
    geocodeLoop o fq cq (n + 1) k =
      ⟨(geocodeLoop o fq cq n (k + 2)).lat, (geocodeLoop o fq cq n (k + 2)).lng,
        .call fq .notFound :: .call cq .transientErr :: .sleep 5 ::
          (geocodeLoop o fq cq n (k + 2)).events,
        (geocodeLoop o fq cq n (k + 2)).next⟩ := by
  rw [geocodeLoop.eq_2, h1, h2]

theorem geocodeLoop_nf_other (o : Oracle) (fq cq : List Char) (n k : Nat)
    (h1 : o k fq = .notFound) (h2 : o (k + 1) cq = .otherErr) :
    geocodeLoop o fq cq (n + 1) k =
      ⟨none, none, [.call fq .notFound, .call cq .otherErr], k + 2⟩ := by
  rw [geocodeLoop.eq_2, h1, h2]

theorem geocodeLoop_nf_nf (o : Oracle) (fq cq : List Char) (n k : Nat)
    (h1 : o k fq = .notFound) (h2 : o (k + 1) cq = .notFound) :
    geocodeLoop o fq cq (n + 1) k =
      ⟨(geocodeLoop o fq cq n (k + 2)).lat, (geocodeLoop o fq cq n (k + 2)).lng,
        .call fq .notFound :: .call cq .notFound :: (geocodeLoop o fq cq n (k + 2)).events,
        (geocodeLoop o fq cq n (k + 2)).next⟩ := by
  rw [geocodeLoop.eq_2, h1, h2]

/-- The loop either returns no coordinates at all or both coordinates. -/
theorem geocodeLoop_shape (o : Oracle) (fq cq : List Char) : ∀ n k,
    ((geocodeLoop o fq cq n k).lat = none ∧ (geocodeLoop o fq cq n k).lng = none) ∨
    (∃ la ln, (geocodeLoop o fq cq n k).lat = some la ∧
      (geocodeLoop o fq cq n k).lng = some ln) := by
  intro n
  induction n with
  | zero => intro k; left; exact ⟨rfl, rfl⟩
  | succ n ih =>
    intro k
    cases h1 : o k fq with
    | found la ln => rw [geocodeLoop_found o fq cq n k la ln h1]; right; exact ⟨la, ln, rfl, rfl⟩
    | transientErr => rw [geocodeLoop_transient1 o fq cq n k h1]; exact ih (k + 1)
    | otherErr => rw [geocodeLoop_other1 o fq cq n k h1]; left; exact ⟨rfl, rfl⟩
    | notFound =>
      cases h2 : o (k + 1) cq with
      | found la ln =>
        rw [geocodeLoop_nf_found o fq cq n k la ln h1 h2]; right; exact ⟨la, ln, rfl, rfl⟩
      | transientErr => rw [geocodeLoop_nf_transient o fq cq n k h1 h2]; exact ih (k + 2)
      | otherErr => rw [geocodeLoop_nf_other o fq cq n k h1 h2]; left; exact ⟨rfl, rfl⟩
      | notFound => rw [geocodeLoop_nf_nf o fq cq n k h1 h2]; exact ih (k + 2)

/-- Under an all-NotFound backend the loop fails, re-issuing both queries
on every one of its `n` iterations and never sleeping. -/
theorem geocodeLoop_allNF (o : Oracle) (h : ∀ k q, o k q = .notFound) (fq cq : List Char) :
    ∀ n k, geocodeLoop o fq cq n k =
      ⟨none, none, (List.replicate n [Ev.call fq .notFound, Ev.call cq .notFound]).flatten,
        k + 2 * n⟩ := by
  intro n
  induction n with
  | zero => intro k; rw [geocodeLoop.eq_1]; simp
  | succ n ih =>
    intro k
    have harith : k + 2 + 2 * n = k + 2 * (n + 1) := by omega
    rw [geocodeLoop_nf_nf o fq cq n k (h k fq) (h (k + 1) cq), ih (k + 2),
      List.replicate_succ, List.flatten_cons, harith]
    rfl

/-- Under an all-transient backend the loop performs one call and one
5-second sleep per iteration and fails. -/
theorem geocodeLoop_allT (o : Oracle) (h : ∀ k q, o k q = .transientErr) (fq cq : List Char) :
    ∀ n k, geocodeLoop o fq cq n k =
      ⟨none, none, (List.replicate n [Ev.call fq .transientErr, Ev.sleep 5]).flatten,
        k + n⟩ := by
  intro n
  induction n with
  | zero => intro k; rw [geocodeLoop.eq_1]; simp
  | succ n ih =>
    intro k
    have harith : k + 1 + n = k + (n + 1) := by omega
    rw [geocodeLoop_transient1 o fq cq n k (h k fq), ih (k + 1),
      List.replicate_succ, List.flatten_cons, harith]
    rfl

/-- Sleeps happen exactly once per transient response, and nowhere else. -/
theorem geocodeLoop_sleeps_eq_transients (o : Oracle) (fq cq : List Char) : ∀ n k,
    numSleeps (geocodeLoop o fq cq n k).events =
      numTransientCalls (geocodeLoop o fq cq n k).events := by
  intro n
  induction n with
  | zero => intro k; rw [geocodeLoop.eq_1]; rfl
  | succ n ih =>
    intro k
    cases h1 : o k fq with
    | found la ln => rw [geocodeLoop_found o fq cq n k la ln h1]; rfl
    | transientErr =>
      rw [geocodeLoop_transient1 o fq cq n k h1]
      simp only [numSleeps, numTransientCalls, List.countP_cons] at ih ⊢
      rw [ih (k + 1)]
      simp
    | otherErr => rw [geocodeLoop_other1 o fq cq n k h1]; rfl
    | notFound =>
      cases h2 : o (k + 1) cq with
      | found la ln => rw [geocodeLoop_nf_found o fq cq n k la ln h1 h2]; rfl
      | transientErr =>
        rw [geocodeLoop_nf_transient o fq cq n k h1 h2]
        simp only [numSleeps, numTransientCalls, List.countP_cons] at ih ⊢
        rw [ih (k + 2)]
        simp
      | otherErr => rw [geocodeLoop_nf_other o fq cq n k h1 h2]; rfl
      | notFound =>
        rw [geocodeLoop_nf_nf o fq cq n k h1 h2]
        simp only [numSleeps, numTransientCalls, List.countP_cons] at ih ⊢
        rw [ih (k + 2)]

theorem resolveBatch_nil (o : Oracle) (k : Nat) : resolveBatch o [] k = ⟨[], [], k⟩ := rfl

theorem resolveBatch_cons (o : Oracle) (r : MRecord) (rs : List MRecord) (k : Nat) :
    resolveBatch o (r :: rs) k =
      ⟨((geocode_address o r.address r.city r.state r.postal_code 3 k).lat,
          (geocode_address o r.address r.city r.state r.postal_code 3 k).lng) ::
          (resolveBatch o rs (geocode_address o r.address r.city r.state r.postal_code 3 k).next).outcomes,
        (geocode_address o r.address r.city r.state r.postal_code 3 k).events ++
          (resolveBatch o rs (geocode_address o r.address r.city r.state r.postal_code 3 k).next).events,
        (resolveBatch o rs (geocode_address o r.address r.city r.state r.postal_code 3 k).next).next⟩ := rfl

/-- The batch loop yields exactly one outcome per input record. -/
theorem resolveBatch_length (o : Oracle) : ∀ (records : List MRecord) (k : Nat),
    (resolveBatch o records k).outcomes.length = records.length := by
  intro records
  induction records with
  | nil => intro k; rfl
  | cons r rs ih =>
    intro k
    rw [resolveBatch_cons]
    simp [ih]

/-- C1 counterexample: with a backend that always reports zero matches,
`geocode_address` with the default `max_retries = 3` issues 6 calls,
re-issuing the very same full-address query (events 0 and 2 coincide),
instead of the at most 2 calls the claim's never-retried reading allows. -/
theorem C1_counterexample :
    numCalls (geocode_address oracleNF ("a".toList) ("b".toList) none none 3 0).events = 6 ∧
    (geocode_address oracleNF ("a".toList) ("b".toList) none none 3 0).events[0]? =
      (geocode_address oracleNF ("a".toList) ("b".toList) none none 3 0).events[2]? ∧
    (geocode_address oracleNF ("a".toList) ("b".toList) none none 3 0).events[0]? =
      some (.call ("a, b".toList) .notFound) ∧
    (6 : Nat) ≠ 2 := by decide

/-- C1 (amended): a NotFound response is treated as a negative result, not
an error — the run returns normally with no coordinates and never sleeps —
but it is retried: the loop re-issues the same full-address and city
queries on each of its `max_retries` iterations (2·n calls in total)
before giving up. -/
theorem C1_notFound_negative_but_retried (o : Oracle) (h : ∀ k q, o k q = .notFound)
    (address city : List Char) (state postal_code : Option (List Char)) (n k : Nat) :
    (geocode_address o address city state postal_code n k).lat = none ∧
    (geocode_address o address city state postal_code n k).lng = none ∧
    numSleeps (geocode_address o address city state postal_code n k).events = 0 ∧
    (geocode_address o address city state postal_code n k).events =
      (List.replicate n
        [Ev.call (clean_address (buildFullAddress address city state postal_code)) .notFound,
         Ev.call (clean_address (buildCityQuery city state postal_code)) .notFound]).flatten ∧
    numCalls (geocode_address o address city state postal_code n k).events = 2 * n := by
  unfold geocode_address
  rw [geocodeLoop_allNF o h _ _ n k]
  refine ⟨rfl, rfl, ?_, rfl, ?_⟩
  · rw [numSleeps_flatten_replicate]
    simp [numSleeps, List.countP_cons]
  · rw [numCalls_flatten_replicate]
    simp [numCalls, List.countP_cons, Nat.mul_comm]

/-- Witness for the amended C1 at a concrete input. -/
theorem C1_witness :
    (geocode_address oracleNF ("a".toList) ("b".toList) none none 3 0).lat = none ∧
    (geocode_address oracleNF ("a".toList) ("b".toList) none none 3 0).lng = none ∧
    numSleeps (geocode_address oracleNF ("a".toList) ("b".toList) none none 3 0).events = 0 ∧
    (geocode_address oracleNF ("a".toList) ("b".toList) none none 3 0).events =
      (List.replicate 3
        [Ev.call (clean_address (buildFullAddress ("a".toList) ("b".toList) none none)) .notFound,
         Ev.call (clean_address (buildCityQuery ("b".toList) none none)) .notFound]).flatten ∧
    numCalls (geocode_address oracleNF ("a".toList) ("b".toList) none none 3 0).events = 2 * 3 :=
  C1_notFound_negative_but_retried oracleNF (fun _ _ => rfl) ("a".toList) ("b".toList)
    none none 3 0

/-- C2: with a backend that always raises a transient error, the loop makes
exactly `max_retries` geocoding attempts, returns no coordinates, and the
batch over any record list still yields one outcome per record (nothing
propagates out of the per-record resolution). -/
theorem C2_transient_retry_bound (o : Oracle) (h : ∀ k q, o k q = .transientErr)
    (address city : List Char) (state postal_code : Option (List Char)) (n k : Nat)
    (records : List MRecord) (k2 : Nat) :
    numCalls (geocode_address o address city state postal_code n k).events = n ∧
    (geocode_address o address city state postal_code n k).lat = none ∧
    (geocode_address o address city state postal_code n k).lng = none ∧
    (resolveBatch o records k2).outcomes.length = records.length := by
  unfold geocode_address
  rw [geocodeLoop_allT o h _ _ n k]
  refine ⟨?_, rfl, rfl, resolveBatch_length o records k2⟩
  rw [numCalls_flatten_replicate]
  simp [numCalls, List.countP_cons]

/-- Witness for C2 at a concrete input with `max_retries = 3`. -/
theorem C2_witness :
    numCalls (geocode_address oracleT ("a".toList) ("b".toList) none none 3 0).events = 3 ∧
    (geocode_address oracleT ("a".toList) ("b".toList) none none 3 0).lat = none ∧
    (geocode_address oracleT ("a".toList) ("b".toList) none none 3 0).lng = none ∧
    (resolveBatch oracleT [⟨"a".toList, "b".toList, none, none⟩] 0).outcomes.length = 1 :=
  C2_transient_retry_bound oracleT (fun _ _ => rfl) ("a".toList) ("b".toList) none none 3 0
    [⟨"a".toList, "b".toList, none, none⟩] 0

/-- C3: the batch produces exactly one outcome per record, and every
outcome has either both coordinates absent (the failed case) or both
present — failed XOR coordinates-present. -/
theorem C3_one_outcome_per_record (o : Oracle) (records : List MRecord) (k : Nat) :
    (resolveBatch o records k).outcomes.length = records.length ∧
    ∀ p ∈ (resolveBatch o records k).outcomes,
      (p.1 = none ∧ p.2 = none) ∨ ∃ la ln, p.1 = some la ∧ p.2 = some ln := by
  refine ⟨resolveBatch_length o records k, ?_⟩
  induction records generalizing k with
  | nil => intro p hp; rw [resolveBatch_nil] at hp; simp at hp
  | cons r rs ih =>
    intro p hp
    rw [resolveBatch_cons] at hp
    rcases List.mem_cons.mp hp with hp | hp
    · subst hp
      exact geocodeLoop_shape o _ _ 3 k
    · exact ih _ p hp

/-- Witness for C3 at a concrete input. -/
theorem C3_witness :
    (resolveBatch oracleFound [⟨"a".toList, "b".toList, none, none⟩] 0).outcomes.length = 1 :=
  (C3_one_outcome_per_record oracleFound [⟨"a".toList, "b".toList, none, none⟩] 0).1

/-- C4 counterexample: two identical records with an always-successful
backend cause 2 geocoding calls, not the single call the cache claim
predicts — there is no resolution cache in the code. -/
theorem C4_counterexample :
    numCalls (resolveBatch oracleFound
      [⟨"a".toList, "b".toList, none, none⟩, ⟨"a".toList, "b".toList, none, none⟩] 0).events
      = 2 ∧
    (2 : Nat) ≠ 1 := by decide

/-- C4 (amended): there is no cache: each record issues its own backend
calls, so a batch of m identical records with an always-successful backend
makes exactly m calls (one per record), not one in total. -/
theorem C4_no_cache_one_call_each (o : Oracle)
    (h : ∀ k q, ∃ la ln, o k q = .found la ln) (rec : MRecord) :
    ∀ m k, numCalls (resolveBatch o (List.replicate m rec) k).events = m := by
  intro m
  induction m with
  | zero => intro k; rfl
  | succ m ih =>
    intro k
    obtain ⟨la, ln, hf⟩ :=
      h k (clean_address (buildFullAddress rec.address rec.city rec.state rec.postal_code))
    have hrun : geocode_address o rec.address rec.city rec.state rec.postal_code 3 k =
        ⟨some la, some ln,
          [.call (clean_address
            (buildFullAddress rec.address rec.city rec.state rec.postal_code)) (.found la ln)],
          k + 1⟩ := by
      unfold geocode_address
      exact geocodeLoop_found o _ _ 2 k la ln hf
    rw [List.replicate_succ, resolveBatch_cons, hrun]
    simp [numCalls_append, numCalls_cons_call, numCalls_nil, ih (k + 1)]

/-- Witness for the amended C4 at a concrete two-record batch. -/
theorem C4_witness :
    numCalls (resolveBatch oracleFound
      (List.replicate 2 (⟨"a".toList, "b".toList, none, none⟩ : MRecord)) 0).events = 2 :=
  C4_no_cache_one_call_each oracleFound (fun _ _ => ⟨1, 2, rfl⟩)
    ⟨"a".toList, "b".toList, none, none⟩ 2 0

/-- C5 counterexample: a record with empty address and city is not
skipped: with the default `max_retries = 3` and an all-NotFound backend
the code still makes 6 backend calls, the first with query ",". -/
theorem C5_counterexample :
    numCalls (geocode_address oracleNF [] [] none none 3 0).events = 6 ∧
    (6 : Nat) ≠ 0 ∧
    (geocode_address oracleNF [] [] none none 3 0).events[0]? =
      some (.call [','] .notFound) := by decide

/-- C5 (amended): a record missing both address and city is not skipped
and no strategy yields an absent query: the degenerate full-address query
"," and the empty city query are still issued on every one of the n retry
iterations (2·n calls) before the record fails. -/
theorem C5_missing_fields_still_query (o : Oracle) (h : ∀ k q, o k q = .notFound) (n k : Nat) :
    (geocode_address o [] [] none none n k).lat = none ∧
    (geocode_address o [] [] none none n k).lng = none ∧
    numCalls (geocode_address o [] [] none none n k).events = 2 * n ∧
    (geocode_address o [] [] none none n k).events =
      (List.replicate n [Ev.call [','] .notFound, Ev.call ([] : List Char) .notFound]).flatten := by
  have e1 : clean_address (buildFullAddress [] [] none none) = [','] := rfl
  have e2 : clean_address (buildCityQuery [] none none) = [] := rfl
  unfold geocode_address
  rw [e1, e2, geocodeLoop_allNF o h [','] [] n k]
  refine ⟨rfl, rfl, ?_, rfl⟩
  rw [numCalls_flatten_replicate]
  simp [numCalls, List.countP_cons, Nat.mul_comm]

/-- Witness for the amended C5 at a concrete input. -/
theorem C5_witness :
    (geocode_address oracleNF [] [] none none 3 0).lat = none ∧
    (geocode_address oracleNF [] [] none none 3 0).lng = none ∧
    numCalls (geocode_address oracleNF [] [] none none 3 0).events = 2 * 3 ∧
    (geocode_address oracleNF [] [] none none 3 0).events =
      (List.replicate 3 [Ev.call [','] .notFound, Ev.call ([] : List Char) .notFound]).flatten :=
  C5_missing_fields_still_query oracleNF (fun _ _ => rfl) 3 0

/-- C8 counterexample: with an all-NotFound backend and one retry
iteration the code issues two consecutive backend calls with no sleep
event anywhere in the trace: requests are not separated by any delay. -/
theorem C8_counterexample :
    (geocode_address oracleNF ("a".toList) ("b".toList) none none 1 0).events =
      [.call ("a, b".toList) .notFound, .call ("b".toList) .notFound] ∧
    numSleeps (geocode_address oracleNF ("a".toList) ("b".toList) none none 1 0).events = 0 ∧
    numCalls (geocode_address oracleNF ("a".toList) ("b".toList) none none 1 0).events = 2 := by
  decide

/-- C8 (amended): the only delay the pipeline ever performs is the
5-second sleep after a transient error: in every run the number of sleep
events equals the number of transient-error responses, so NotFound
responses and the city fallback are issued with no inter-request delay. -/
theorem C8_sleep_only_after_transient (o : Oracle) (address city : List Char)
    (state postal_code : Option (List Char)) (n k : Nat) :
    numSleeps (geocode_address o address city state postal_code n k).events =
      numTransientCalls (geocode_address o address city state postal_code n k).events :=
  geocodeLoop_sleeps_eq_transients o _ _ n k

/-- C9: the fallback ladder is nested inside the retry loop: in one
iteration, a NotFound on the full-address query triggers the city query in
the same iteration, before any retry delay; a transient error from either
query (or a NotFound pair) consumes exactly one retry of the whole pair,
leaving a run with one less retry starting two calls later. -/
theorem C9_fallback_inside_retry (o : Oracle) (address city : List Char)
    (state postal_code : Option (List Char)) (n k : Nat) :
    (o k (clean_address (buildFullAddress address city state postal_code)) = .notFound →
      o (k + 1) (clean_address (buildCityQuery city state postal_code)) = .transientErr →
      geocode_address o address city state postal_code (n + 1) k =
        ⟨(geocode_address o address city state postal_code n (k + 2)).lat,
         (geocode_address o address city state postal_code n (k + 2)).lng,
         .call (clean_address (buildFullAddress address city state postal_code)) .notFound ::
           .call (clean_address (buildCityQuery city state postal_code)) .transientErr ::
           .sleep 5 :: (geocode_address o address city state postal_code n (k + 2)).events,
         (geocode_address o address city state postal_code n (k + 2)).next⟩) ∧
    (o k (clean_address (buildFullAddress address city state postal_code)) = .transientErr →
      geocode_address o address city state postal_code (n + 1) k =
        ⟨(geocode_address o address city state postal_code n (k + 1)).lat,
         (geocode_address o address city state postal_code n (k + 1)).lng,
         .call (clean_address (buildFullAddress address city state postal_code)) .transientErr ::
           .sleep 5 :: (geocode_address o address city state postal_code n (k + 1)).events,
         (geocode_address o address city state postal_code n (k + 1)).next⟩) ∧
    (o k (clean_address (buildFullAddress address city state postal_code)) = .notFound →
      o (k + 1) (clean_address (buildCityQuery city state postal_code)) = .notFound →
      geocode_address o address city state postal_code (n + 1) k =
        ⟨(geocode_address o address city state postal_code n (k + 2)).lat,
         (geocode_address o address city state postal_code n (k + 2)).lng,
         .call (clean_address (buildFullAddress address city state postal_code)) .notFound ::
           .call (clean_address (buildCityQuery city state postal_code)) .notFound ::
           (geocode_address o address city state postal_code n (k + 2)).events,
         (geocode_address o address city state postal_code n (k + 2)).next⟩) := by
  refine ⟨fun h1 h2 => ?_, fun h1 => ?_, fun h1 h2 => ?_⟩
  · exact geocodeLoop_nf_transient o _ _ n k h1 h2
  · exact geocodeLoop_transient1 o _ _ n k h1
  · exact geocodeLoop_nf_nf o _ _ n k h1 h2

/-- Witness for C9 at a concrete input: first call NotFound, second call
transient. -/
theorem C9_witness :
    geocode_address oracleC9 ("a".toList) ("b".toList) none none 2 0 =
      ⟨(geocode_address oracleC9 ("a".toList) ("b".toList) none none 1 2).lat,
       (geocode_address oracleC9 ("a".toList) ("b".toList) none none 1 2).lng,
       .call (clean_address (buildFullAddress ("a".toList) ("b".toList) none none)) .notFound ::
         .call (clean_address (buildCityQuery ("b".toList) none none)) .transientErr ::
         .sleep 5 :: (geocode_address oracleC9 ("a".toList) ("b".toList) none none 1 2).events,
       (geocode_address oracleC9 ("a".toList) ("b".toList) none none 1 2).next⟩ :=
  (C9_fallback_inside_retry oracleC9 ("a".toList) ("b".toList) none none 1 0).1 rfl rfl

/-- C10: state and postal code are appended to both query strings exactly
when truthy: `None` and the empty string behave identically (silently
omitted), and a truthy value is interpolated verbatim with a ", "
separator, with no validation of its contents. -/
theorem C10_truthy_append (address city s p : List Char)
    (state postal_code : Option (List Char)) (hs : s ≠ []) (hp : p ≠ []) :
    buildFullAddress address city none postal_code =
      buildFullAddress address city (some []) postal_code ∧
    buildCityQuery city none postal_code = buildCityQuery city (some []) postal_code ∧
    buildFullAddress address city state none = buildFullAddress address city state (some []) ∧
    buildCityQuery city state none = buildCityQuery city state (some []) ∧
    buildFullAddress address city (some s) none =
      address ++ [',', ' '] ++ city ++ [',', ' '] ++ s ∧
    buildFullAddress address city state (some p) =
      buildFullAddress address city state none ++ [',', ' '] ++ p ∧
    buildCityQuery city (some s) none = city ++ [',', ' '] ++ s ∧
    buildCityQuery city state (some p) = buildCityQuery city state none ++ [',', ' '] ++ p := by
  have hs' : s.isEmpty = false := by
    cases s with
    | nil => exact absurd rfl hs
    | cons a t => rfl
  have hp' : p.isEmpty = false := by
    cases p with
    | nil => exact absurd rfl hp
    | cons a t => rfl
  refine ⟨rfl, rfl, rfl, rfl, ?_, ?_, ?_, ?_⟩
  · simp [buildFullAddress, hs']
  · simp [buildFullAddress, hp']
  · simp [buildCityQuery, hs']
  · simp [buildCityQuery, hp']

/-- Witness for C10 at concrete inputs. -/
theorem C10_witness :
    buildFullAddress ("a".toList) ("b".toList) none none =
      buildFullAddress ("a".toList) ("b".toList) (some []) none ∧
    buildCityQuery ("b".toList) none none = buildCityQuery ("b".toList) (some []) none ∧
    buildFullAddress ("a".toList) ("b".toList) none none =
      buildFullAddress ("a".toList) ("b".toList) none (some []) ∧
    buildCityQuery ("b".toList) none none = buildCityQuery ("b".toList) none (some []) ∧
    buildFullAddress ("a".toList) ("b".toList) (some ("c".toList)) none =
      "a".toList ++ [',', ' '] ++ "b".toList ++ [',', ' '] ++ "c".toList ∧
    buildFullAddress ("a".toList) ("b".toList) none (some ("d".toList)) =
      buildFullAddress ("a".toList) ("b".toList) none none ++ [',', ' '] ++ "d".toList ∧
    buildCityQuery ("b".toList) (some ("c".toList)) none =
      "b".toList ++ [',', ' '] ++ "c".toList ∧
    buildCityQuery ("b".toList) none (some ("d".toList)) =
      buildCityQuery ("b".toList) none none ++ [',', ' '] ++ "d".toList :=
  C10_truthy_append ("a".toList) ("b".toList) ("c".toList) ("d".toList) none none
    (by decide) (by decide)
